import Mathlib

/-!
Shallow embedding, in Lean 4, of a slice of the grafana backend:

* pkg/services/preferences/preferences.go — the preferences manager and
  its GetPreferencesWithDefaults merge loop;
* pkg/services/accesscontrol/api/api.go — the two access-control HTTP
  handlers getUserPermissions and getSimpliedUsersPermissions;
* pkg/services/apikey/apikeyimpl/apikey.go — ProvideService and
  readQuotaConfig;
* pkg/kindsys/load.go — ToKindMeta, ToSomeKindMeta and BindKindLineage;
* pkg/cuectx (cuectx.go) — PrefixWithGrafanaCUE.

External collaborators (the SQL store, the CUE/Thema runtime, the ini
library, the bus, the HTTP framework) are modelled as parameters: abstract
types together with the functions the embedded code calls on them.  The
control flow of each embedded function follows its Go source line by line.
-/

/-! ## Preferences (pkg/services/preferences/preferences.go)

models.Preferences display-setting fields read by the merge loop of
GetPreferencesWithDefaults.  Go types: string, string, string, int64. -/

structure Preferences where
  Theme : String
  Timezone : String
  WeekStart : String
  HomeDashboardId : Int
  deriving DecidableEq, Repr

/-- One iteration of the merge loop body of GetPreferencesWithDefaults
(preferences.go lines 40-53): each field of the accumulator res is
overwritten by the current entry p when p's field is non-empty
(non-empty string; non-zero HomeDashboardId). -/
def applyPref (res p : Preferences) : Preferences :=
  let res := if p.Theme != "" then { res with Theme := p.Theme } else res
  let res := if p.Timezone != "" then { res with Timezone := p.Timezone } else res
  let res := if p.WeekStart != "" then { res with WeekStart := p.WeekStart } else res
  let res := if p.HomeDashboardId != 0 then { res with HomeDashboardId := p.HomeDashboardId } else res
  res

/-- GetPreferencesWithDefaults (preferences.go lines 28-56).  The store
calls are external: storeDefaults stands for preferenceStore.GetDefaults()
and prefs for the list returned by preferenceStore.List (ordered by the
store by specificity: team, then org, then user).  The merge is a left
fold of the loop body over the list. -/
def GetPreferencesWithDefaults (storeDefaults : Preferences) (prefs : List Preferences) : Preferences :=
  prefs.foldl applyPref storeDefaults

theorem applyPref_Theme (res p : Preferences) :
    (applyPref res p).Theme = if p.Theme != "" then p.Theme else res.Theme := by
  unfold applyPref
  by_cases h1 : p.Theme != "" <;> by_cases h2 : p.Timezone != "" <;>
    by_cases h3 : p.WeekStart != "" <;> by_cases h4 : p.HomeDashboardId != 0 <;>
    simp [h1, h2, h3, h4]

theorem applyPref_Timezone (res p : Preferences) :
    (applyPref res p).Timezone = if p.Timezone != "" then p.Timezone else res.Timezone := by
  unfold applyPref
  by_cases h1 : p.Theme != "" <;> by_cases h2 : p.Timezone != "" <;>
    by_cases h3 : p.WeekStart != "" <;> by_cases h4 : p.HomeDashboardId != 0 <;>
    simp [h1, h2, h3, h4]

theorem applyPref_WeekStart (res p : Preferences) :
    (applyPref res p).WeekStart = if p.WeekStart != "" then p.WeekStart else res.WeekStart := by
  unfold applyPref
  by_cases h1 : p.Theme != "" <;> by_cases h2 : p.Timezone != "" <;>
    by_cases h3 : p.WeekStart != "" <;> by_cases h4 : p.HomeDashboardId != 0 <;>
    simp [h1, h2, h3, h4]

theorem applyPref_HomeDashboardId (res p : Preferences) :
    (applyPref res p).HomeDashboardId
      = if p.HomeDashboardId != 0 then p.HomeDashboardId else res.HomeDashboardId := by
  unfold applyPref
  by_cases h1 : p.Theme != "" <;> by_cases h2 : p.Timezone != "" <;>
    by_cases h3 : p.WeekStart != "" <;> by_cases h4 : p.HomeDashboardId != 0 <;>
    simp [h1, h2, h3, h4]

/-- A left fold that overwrites the accumulator whenever the predicate
holds computes the selected value of the last entry satisfying the
predicate (the first such entry of the reversed list), defaulting to the
initial accumulator. -/
theorem foldl_lastWins {α β : Type} (q : β → Bool) (sel : β → α) :
    ∀ (l : List β) (init : α),
      l.foldl (fun a p => if q p then sel p else a) init
        = (((l.reverse.find? q).map sel).getD init) := by
  intro l
  induction l with
  | nil => intro init; rfl
  | cons p t ih =>
    intro init
    simp only [List.foldl_cons, List.reverse_cons, List.find?_append]
    rw [ih]
    cases hf : t.reverse.find? q with
    | some x => simp
    | none =>
      cases hq : q p <;> simp [List.find?, hq]

/-- Projection of the structure-level merge fold to the Theme field. -/
theorem getPrefs_foldl_Theme (l : List Preferences) (d : Preferences) :
    (GetPreferencesWithDefaults d l).Theme
      = l.foldl (fun a p => if p.Theme != "" then p.Theme else a) d.Theme := by
  induction l generalizing d with
  | nil => rfl
  | cons p t ih =>
    simp only [GetPreferencesWithDefaults, List.foldl_cons] at *
    rw [ih, applyPref_Theme]

theorem getPrefs_foldl_Timezone (l : List Preferences) (d : Preferences) :
    (GetPreferencesWithDefaults d l).Timezone
      = l.foldl (fun a p => if p.Timezone != "" then p.Timezone else a) d.Timezone := by
  induction l generalizing d with
  | nil => rfl
  | cons p t ih =>
    simp only [GetPreferencesWithDefaults, List.foldl_cons] at *
    rw [ih, applyPref_Timezone]

theorem getPrefs_foldl_WeekStart (l : List Preferences) (d : Preferences) :
    (GetPreferencesWithDefaults d l).WeekStart
      = l.foldl (fun a p => if p.WeekStart != "" then p.WeekStart else a) d.WeekStart := by
  induction l generalizing d with
  | nil => rfl
  | cons p t ih =>
    simp only [GetPreferencesWithDefaults, List.foldl_cons] at *
    rw [ih, applyPref_WeekStart]

theorem getPrefs_foldl_HomeDashboardId (l : List Preferences) (d : Preferences) :
    (GetPreferencesWithDefaults d l).HomeDashboardId
      = l.foldl (fun a p => if p.HomeDashboardId != 0 then p.HomeDashboardId else a) d.HomeDashboardId := by
  induction l generalizing d with
  | nil => rfl
  | cons p t ih =>
    simp only [GetPreferencesWithDefaults, List.foldl_cons] at *
    rw [ih, applyPref_HomeDashboardId]

/-- C1: GetPreferencesWithDefaults merges per field with last-non-empty-wins
semantics over the store-ordered list (team, then org, then user): for each
of Theme, Timezone, WeekStart and HomeDashboardId, the result's value is
the value of the last entry of the list whose value for that field is
non-empty (non-empty string, or non-zero HomeDashboardId) — equivalently,
of the first such entry of the reversed list — and the store default's
value when no entry has one. -/
theorem getPreferencesWithDefaults_lastNonEmptyWins (d : Preferences) (prefs : List Preferences) :
    (GetPreferencesWithDefaults d prefs).Theme
        = (((prefs.reverse.find? (fun p => p.Theme != "")).map Preferences.Theme).getD d.Theme)
  ∧ (GetPreferencesWithDefaults d prefs).Timezone
        = (((prefs.reverse.find? (fun p => p.Timezone != "")).map Preferences.Timezone).getD d.Timezone)
  ∧ (GetPreferencesWithDefaults d prefs).WeekStart
        = (((prefs.reverse.find? (fun p => p.WeekStart != "")).map Preferences.WeekStart).getD d.WeekStart)
  ∧ (GetPreferencesWithDefaults d prefs).HomeDashboardId
        = (((prefs.reverse.find? (fun p => p.HomeDashboardId != 0)).map Preferences.HomeDashboardId).getD d.HomeDashboardId) := by
  refine ⟨?_, ?_, ?_, ?_⟩
  · rw [getPrefs_foldl_Theme, foldl_lastWins]
  · rw [getPrefs_foldl_Timezone, foldl_lastWins]
  · rw [getPrefs_foldl_WeekStart, foldl_lastWins]
  · rw [getPrefs_foldl_HomeDashboardId, foldl_lastWins]

/-- C6: any field that is empty in every listed preference entry is left
unchanged by the merge: the result's value for that field equals the store
default's value for that field. -/
theorem getPreferencesWithDefaults_frame (d : Preferences) (prefs : List Preferences) :
    ((∀ p ∈ prefs, p.Theme = "") → (GetPreferencesWithDefaults d prefs).Theme = d.Theme)
  ∧ ((∀ p ∈ prefs, p.Timezone = "") → (GetPreferencesWithDefaults d prefs).Timezone = d.Timezone)
  ∧ ((∀ p ∈ prefs, p.WeekStart = "") → (GetPreferencesWithDefaults d prefs).WeekStart = d.WeekStart)
  ∧ ((∀ p ∈ prefs, p.HomeDashboardId = 0) →
        (GetPreferencesWithDefaults d prefs).HomeDashboardId = d.HomeDashboardId) := by
  refine ⟨?_, ?_, ?_, ?_⟩
  · intro h
    rw [getPrefs_foldl_Theme, foldl_lastWins]
    have : prefs.reverse.find? (fun p => p.Theme != "") = none := by
      rw [List.find?_eq_none]
      intro p hp
      simp [h p (List.mem_reverse.mp hp)]
    simp [this]
  · intro h
    rw [getPrefs_foldl_Timezone, foldl_lastWins]
    have : prefs.reverse.find? (fun p => p.Timezone != "") = none := by
      rw [List.find?_eq_none]
      intro p hp
      simp [h p (List.mem_reverse.mp hp)]
    simp [this]
  · intro h
    rw [getPrefs_foldl_WeekStart, foldl_lastWins]
    have : prefs.reverse.find? (fun p => p.WeekStart != "") = none := by
      rw [List.find?_eq_none]
      intro p hp
      simp [h p (List.mem_reverse.mp hp)]
    simp [this]
  · intro h
    rw [getPrefs_foldl_HomeDashboardId, foldl_lastWins]
    have : prefs.reverse.find? (fun p => p.HomeDashboardId != 0) = none := by
      rw [List.find?_eq_none]
      intro p hp
      simp [h p (List.mem_reverse.mp hp)]
    simp [this]

/-- Closed instance of the frame theorem: merging a list whose single entry
has every field empty leaves the store defaults untouched. -/
theorem getPreferencesWithDefaults_frame_witness :
    (GetPreferencesWithDefaults
        (Preferences.mk ("dark") ("utc") ("monday") 7)
        [Preferences.mk ("") ("") ("") 0]).Theme = "dark" := by
  exact (getPreferencesWithDefaults_frame
    (Preferences.mk ("dark") ("utc") ("monday") 7) [Preferences.mk ("") ("") ("") 0]).1
    (by intro p hp; simp at hp; rw [hp])

/-! ## Access-control API (pkg/services/accesscontrol/api/api.go)

The response.Response values the handlers build.  E is the abstract Go
error type; M the abstract type of the permissions map produced by
ac.BuildPermissionsMap; P the abstract permissions payload of the
users/permissions endpoint. -/

inductive ACBody (E M P : Type)
  | jsonMap (m : M)
  | jsonErr (e : E)
  | jsonMsg (msg : String)
  | errorResp (msg : String) (e : E)
  | jsonPerms (perms : P)
  deriving DecidableEq

structure ACResponse (E M P : Type) where
  status : Nat
  body : ACBody E M P
  deriving DecidableEq

/-- getUserPermissions (api.go lines 44-53).  The external service call
api.Service.GetUserPermissions returns the Go pair (permissions, err),
modelled by the parameters svcPerms and svcErr; buildPermissionsMap models
ac.BuildPermissionsMap.  The source builds response.JSON(500, err) when
err is non-nil but does not return it (there is no return keyword on that
line), so the value is discarded and control falls through to the final
return of response.JSON(200, BuildPermissionsMap(permissions)). -/
def getUserPermissions {E M P Perm : Type} (buildPermissionsMap : List Perm → M)
    (svcPerms : List Perm) (svcErr : Option E) : ACResponse E M P :=
  let _discarded : Option (ACResponse E M P) :=
    svcErr.map (fun e => ACResponse.mk 500 (ACBody.jsonErr e))
  ACResponse.mk 200 (ACBody.jsonMap (buildPermissionsMap svcPerms))

/-- C2 (code bug): when the service returns a non-nil error, the handler
still replies with HTTP 200 carrying BuildPermissionsMap of whatever
permissions value accompanied the error — the 500 response is constructed
but never returned.  The claim that the error propagates as a 500 response
is therefore violated by the code. -/
theorem getUserPermissions_error_still_200 {E M P Perm : Type}
    (buildPermissionsMap : List Perm → M) (svcPerms : List Perm) (e : E) :
    getUserPermissions (P := P) buildPermissionsMap svcPerms (some e)
      = ACResponse.mk 200 (ACBody.jsonMap (buildPermissionsMap svcPerms)) := rfl

/-- getSimpliedUsersPermissions (api.go lines 56-71).  actionPfx models the
actionPrefix query parameter; the external service call
GetSimplifiedUsersPermissions returns the pair (permissions, err), modelled
by svcPerms and svcErr.  The second component of the result records whether
the service was invoked: the empty-prefix branch returns before the call. -/
def getSimpliedUsersPermissions {E M P : Type} (actionPfx : String)
    (svcPerms : P) (svcErr : Option E) : ACResponse E M P × Bool :=
  if actionPfx = "" then
    (ACResponse.mk 400 (ACBody.jsonMsg ("missing action prefix")), false)
  else
    match svcErr with
    | some e => (ACResponse.mk 500 (ACBody.errorResp ("could not get org user permissions") e), true)
    | none => (ACResponse.mk 200 (ACBody.jsonPerms svcPerms), true)

/-- C9: with an empty actionPrefix the handler replies 400 with body
"missing action prefix" without invoking the access-control service; with
a non-empty actionPrefix it invokes the service and replies 500 on error
and 200 with the permissions on success. -/
theorem getSimpliedUsersPermissions_spec {E M P : Type} (actionPfx : String)
    (svcPerms : P) (svcErr : Option E) :
    (actionPfx = "" →
      getSimpliedUsersPermissions (E := E) (M := M) actionPfx svcPerms svcErr
        = (ACResponse.mk 400 (ACBody.jsonMsg ("missing action prefix")), false))
  ∧ (actionPfx ≠ "" → ∀ e, svcErr = some e →
      getSimpliedUsersPermissions (E := E) (M := M) actionPfx svcPerms svcErr
        = (ACResponse.mk 500 (ACBody.errorResp ("could not get org user permissions") e), true))
  ∧ (actionPfx ≠ "" → svcErr = none →
      getSimpliedUsersPermissions (E := E) (M := M) actionPfx svcPerms svcErr
        = (ACResponse.mk 200 (ACBody.jsonPerms svcPerms), true)) := by
  refine ⟨?_, ?_, ?_⟩
  · intro h
    simp [getSimpliedUsersPermissions, h]
  · intro h e he
    simp [getSimpliedUsersPermissions, h, he]
  · intro h he
    simp [getSimpliedUsersPermissions, h, he]

/-- Closed instance of the users/permissions handler theorem: an empty
actionPrefix yields the 400 response with the service not invoked. -/
theorem getSimpliedUsersPermissions_witness :
    getSimpliedUsersPermissions (E := Unit) (M := Unit) (P := Nat) ("") 5 none
      = (ACResponse.mk 400 (ACBody.jsonMsg ("missing action prefix")), false) :=
  (getSimpliedUsersPermissions_spec (E := Unit) (M := Unit) (P := Nat) ("") 5 none).1 rfl

/-! ## API keys (pkg/services/apikey/apikeyimpl/apikey.go)

The ini configuration consumed by readQuotaConfig: cfg.Raw is nil or an
ini file; an ini file maps a section name to nothing (HasSection false) or
to the section's key lookup; a section maps a key name to nothing (key
absent or unparsable, MustInt64 falls back to its default) or to the
parsed int64 value. -/

structure IniFile where
  sections : String → Option (String → Option Int)

structure SettingCfg where
  Raw : Option IniFile

/-- The two quota scopes used by readQuotaConfig: quota.GlobalScope and
quota.OrgScope. -/
inductive QuotaScope
  | global
  | org
  deriving DecidableEq

/-- readQuotaConfig (apikey.go lines 73-92).  T is the abstract quota.Tag
type and newTag models quota.NewTag applied to the fixed pair
(apikey.QuotaTargetSrv, apikey.QuotaTarget) and the given scope; the
external quota.Map built by two Set calls is modelled as the list of its
bindings in insertion order.  The Go pair (map pointer, error) becomes a
pair of the binding list and an optional error. -/
def readQuotaConfig {E T : Type} (newTag : QuotaScope → Except E T)
    (cfg : SettingCfg) : List (T × Int) × Option E :=
  match cfg.Raw with
  | none => ([], none)
  | some raw =>
    match raw.sections ("quota") with
    | none => ([], none)
    | some quotaSection =>
      match newTag QuotaScope.global with
      | Except.error e => ([], some e)
      | Except.ok globalQuotaTag =>
        match newTag QuotaScope.org with
        | Except.error e => ([], some e)
        | Except.ok orgQuotaTag =>
          ([(globalQuotaTag, (quotaSection ("global_api_key")).getD (-1)),
            (orgQuotaTag, (quotaSection ("org_api_key")).getD 10)], none)

/-- C5: readQuotaConfig produces limits at exactly the global and org
scopes: with a quota section present (and the two external tag
constructions succeeding) it binds the global api-key tag to the section's
global_api_key value, defaulting to -1, and the org api-key tag to the
section's org_api_key value, defaulting to 10; with cfg.Raw nil or the
section absent it returns an empty map and no error. -/
theorem readQuotaConfig_spec {E T : Type} (newTag : QuotaScope → Except E T)
    (cfg : SettingCfg) :
    (cfg.Raw = none → readQuotaConfig newTag cfg = ([], none))
  ∧ (∀ raw, cfg.Raw = some raw → raw.sections ("quota") = none →
      readQuotaConfig newTag cfg = ([], none))
  ∧ (∀ raw quotaSection gt ot, cfg.Raw = some raw →
      raw.sections ("quota") = some quotaSection →
      newTag QuotaScope.global = Except.ok gt →
      newTag QuotaScope.org = Except.ok ot →
      readQuotaConfig newTag cfg
        = ([(gt, (quotaSection ("global_api_key")).getD (-1)),
            (ot, (quotaSection ("org_api_key")).getD 10)], none)) := by
  refine ⟨?_, ?_, ?_⟩
  · intro h
    simp [readQuotaConfig, h]
  · intro raw hr hs
    simp [readQuotaConfig, hr, hs]
  · intro raw quotaSection gt ot hr hs hg ho
    simp [readQuotaConfig, hr, hs, hg, ho]

/-- Closed instance of the readQuotaConfig theorem: a config whose quota
section sets global_api_key to 5 and omits org_api_key yields the bindings
(global tag, 5) and (org tag, 10). -/
theorem readQuotaConfig_witness :
    readQuotaConfig
      (fun s => (Except.ok (s == QuotaScope.global) : Except Unit Bool))
      (SettingCfg.mk (some (IniFile.mk
        (fun s => if s = "quota"
          then some (fun k => if k = "global_api_key" then some 5 else none)
          else none))))
      = ([(true, 5), (false, 10)], none) := by
  have h := (readQuotaConfig_spec
    (fun s => (Except.ok (s == QuotaScope.global) : Except Unit Bool))
    (SettingCfg.mk (some (IniFile.mk
      (fun s => if s = "quota"
        then some (fun k => if k = "global_api_key" then some 5 else none)
        else none))))).2.2
    (IniFile.mk (fun s => if s = "quota"
        then some (fun k => if k = "global_api_key" then some 5 else none)
        else none))
    (fun k => if k = "global_api_key" then some 5 else none)
    true false rfl (by simp) (by simp) (by simp)
  simpa using h

/-- The two store implementations ProvideService can reference:
sqlStore (store.go) and sqlxStore (the newDBLibrary variant). -/
inductive StoreImpl
  | sqlStore
  | sqlxStore
  deriving DecidableEq

/-- ProvideService (apikey.go lines 18-42).  newDBLibrary models
cfg.IsFeatureToggleEnabled applied to that toggle name; publishErr the
result of the external bus.Publish call.  s starts as the zero Service
(nil store); the toggle branch assigns the sqlxStore, and the next
statement unconditionally overwrites s.store with the sqlStore.  The
result pairs the service's final store with the returned error: the
service value itself is returned on every path. -/
def ProvideService {E T : Type} (newDBLibrary : Bool)
    (newTag : QuotaScope → Except E T) (cfg : SettingCfg)
    (publishErr : Option E) : Option StoreImpl × Option E :=
  let store : Option StoreImpl := none
  let store := if newDBLibrary then some StoreImpl.sqlxStore else store
  let store := some StoreImpl.sqlStore
  match (readQuotaConfig newTag cfg).2 with
  | some e => (store, some e)
  | none =>
    match publishErr with
    | some e => (store, some e)
    | none => (store, none)

/-- C8: the service built by ProvideService always uses the sqlStore
backend — the conditional sqlxStore assignment is unconditionally
overwritten — so enabling the newDBLibrary toggle selects the same store
implementation as disabling it. -/
theorem provideService_store_toggle_independent {E T : Type}
    (newTag : QuotaScope → Except E T) (cfg : SettingCfg) (publishErr : Option E) :
    (∀ newDBLibrary,
      (ProvideService newDBLibrary newTag cfg publishErr).1 = some StoreImpl.sqlStore)
  ∧ (ProvideService true newTag cfg publishErr).1
      = (ProvideService false newTag cfg publishErr).1 := by
  constructor
  · intro t
    unfold ProvideService
    cases h : (readQuotaConfig newTag cfg).2 <;> cases publishErr <;> simp [h]
  · unfold ProvideService
    cases h : (readQuotaConfig newTag cfg).2 <;> cases publishErr <;> simp [h]

/-! ## Kind loading (pkg/kindsys/load.go)

The CUE/Thema runtime is external; the embedding abstracts over a cue
value type V, a Go error type E, a metadata payload type P (the decoded
field contents of the four meta structs), a thema.Runtime type R and a
thema.Lineage type L, together with the operations load.go invokes on
them. -/

/-- The four kind categories of the KindMetas type-parameter set. -/
inductive KindCat
  | raw
  | coreStructured
  | customStructured
  | slotImpl
  deriving DecidableEq

/-- SomeKindMeta: the closed interface over the four meta struct types
RawMeta, CoreStructuredMeta, CustomStructuredMeta and SlotImplMeta. -/
inductive SomeKindMeta (P : Type)
  | RawMeta (m : P)
  | CoreStructuredMeta (m : P)
  | CustomStructuredMeta (m : P)
  | SlotImplMeta (m : P)
  deriving DecidableEq

/-- Wrapping a decoded payload in the meta struct of the given category
(the new(T) population performed by item.Decode in ToKindMeta). -/
def mkMeta {P : Type} (cat : KindCat) (m : P) : SomeKindMeta P :=
  match cat with
  | KindCat.raw => SomeKindMeta.RawMeta m
  | KindCat.coreStructured => SomeKindMeta.CoreStructuredMeta m
  | KindCat.customStructured => SomeKindMeta.CustomStructuredMeta m
  | KindCat.slotImpl => SomeKindMeta.SlotImplMeta m

/-- The operations of the external CUE/Thema runtime used by load.go.
vexists models cue.Value.Exists; lookupDef models
CUEFramework(v.Context()).LookupPath(cue.MakePath(cue.Def(name))) for the
definition name of each category; unify models cue.Value.Unify; validate
models cue.Value.Validate(cue.Concrete(false), cue.All()), returning the
error when validation fails; errOf models cue.Value.Err; decode models
cue.Value.Decode into the category's meta struct, none standing for the
divergence case whose Go branch panics; lookupLineage models
LookupPath(cue.MakePath(cue.Str("lineage"))); grafanaThemaRuntime models
cuectx.GrafanaThemaRuntime(); bindLineage models thema.BindLineage with
the bind options folded in, returning the Go pair (lineage, error). -/
structure CueAPI (V E P R L : Type) where
  vexists : V → Bool
  lookupDef : KindCat → V
  unify : V → V → V
  validate : V → Option E
  errOf : V → E
  decode : KindCat → V → Option P
  lookupLineage : V → V
  grafanaThemaRuntime : R
  bindLineage : R → V → Option L × Option E

/-- The errors of load.go: the sentinels ErrValueNotExist and
ErrValueNotAKind, the latter optionally carrying a wrapped cue error (the
ewrap(item.Err(), ErrValueNotAKind) case); none means the bare
sentinel. -/
inductive KindError (E : Type)
  | ErrValueNotExist
  | ErrValueNotAKind (wrapped : Option E)
  deriving DecidableEq

/-- Outcome of a kind-metadata extraction: the Go pair (meta, error)
together with the panic aborts of load.go. -/
inductive KindResult (E P : Type)
  | ok (meta : SomeKindMeta P)
  | err (e : KindError E)
  | panicked
  deriving DecidableEq

/-- ToKindMeta (load.go lines 97-131) at category cat: error
ErrValueNotExist when v does not exist; otherwise unify v with the
framework definition for the category, and when validation of the
unification fails return ewrap(item.Err(), ErrValueNotAKind); otherwise
decode the unified value into the category's meta struct (the decode
failure branch panics in Go). -/
def ToKindMeta {V E P R L : Type} (api : CueAPI V E P R L)
    (cat : KindCat) (v : V) : KindResult E P :=
  if api.vexists v = false then
    KindResult.err KindError.ErrValueNotExist
  else
    let kdef := api.lookupDef cat
    let item := api.unify v kdef
    match api.validate item with
    | some _ => KindResult.err (KindError.ErrValueNotAKind (some (api.errOf item)))
    | none =>
      match api.decode cat item with
      | some m => KindResult.ok (mkMeta cat m)
      | none => KindResult.panicked

/-- ToSomeKindMeta (load.go lines 75-93): ErrValueNotExist when v does not
exist; otherwise the categories are tried in the order raw,
core-structured, custom-structured, slot-implementation, the first call
returning a nil error wins, and when all four error the bare sentinel
ErrValueNotAKind is returned. -/
def ToSomeKindMeta {V E P R L : Type} (api : CueAPI V E P R L) (v : V) : KindResult E P :=
  if api.vexists v = false then
    KindResult.err KindError.ErrValueNotExist
  else
    match ToKindMeta api KindCat.raw v with
    | KindResult.ok m => KindResult.ok m
    | KindResult.panicked => KindResult.panicked
    | KindResult.err _ =>
    match ToKindMeta api KindCat.coreStructured v with
    | KindResult.ok m => KindResult.ok m
    | KindResult.panicked => KindResult.panicked
    | KindResult.err _ =>
    match ToKindMeta api KindCat.customStructured v with
    | KindResult.ok m => KindResult.ok m
    | KindResult.panicked => KindResult.panicked
    | KindResult.err _ =>
    match ToKindMeta api KindCat.slotImpl v with
    | KindResult.ok m => KindResult.ok m
    | KindResult.panicked => KindResult.panicked
    | KindResult.err _ => KindResult.err (KindError.ErrValueNotAKind none)

/-- C3: ToKindMeta returns metadata only when the value exists and the
unification with the framework definition for the category validates; a
non-existent value yields ErrValueNotExist, and a validation failure
yields an error wrapping ErrValueNotAKind (carrying the unified value's
error), never metadata. -/
theorem toKindMeta_spec {V E P R L : Type} (api : CueAPI V E P R L)
    (cat : KindCat) (v : V) :
    (api.vexists v = false → ToKindMeta api cat v = KindResult.err KindError.ErrValueNotExist)
  ∧ (api.vexists v = true →
      ∀ e, api.validate (api.unify v (api.lookupDef cat)) = some e →
        ToKindMeta api cat v
          = KindResult.err (KindError.ErrValueNotAKind
              (some (api.errOf (api.unify v (api.lookupDef cat))))))
  ∧ (∀ m, ToKindMeta api cat v = KindResult.ok m →
      api.vexists v = true
        ∧ api.validate (api.unify v (api.lookupDef cat)) = none) := by
  refine ⟨?_, ?_, ?_⟩
  · intro h
    simp [ToKindMeta, h]
  · intro h e he
    simp [ToKindMeta, h, he]
  · intro m hm
    by_cases h : api.vexists v = false
    · simp [ToKindMeta, h] at hm
    · rw [Bool.not_eq_false] at h
      refine ⟨h, ?_⟩
      cases hv : api.validate (api.unify v (api.lookupDef cat)) with
      | none => rfl
      | some e => simp [ToKindMeta, h, hv] at hm

/-- Closed instance of the ToKindMeta theorem: a non-existent value yields
ErrValueNotExist. -/
theorem toKindMeta_witness :
    ToKindMeta
      (CueAPI.mk (V := Bool) (E := Unit) (P := Unit) (R := Unit) (L := Unit)
        (fun v => v) (fun _ => true) (fun a _ => a) (fun _ => none)
        (fun _ => ()) (fun _ _ => some ()) (fun v => v) () (fun _ _ => (none, none)))
      KindCat.raw false
      = KindResult.err KindError.ErrValueNotExist :=
  (toKindMeta_spec
    (CueAPI.mk (V := Bool) (E := Unit) (P := Unit) (R := Unit) (L := Unit)
      (fun v => v) (fun _ => true) (fun a _ => a) (fun _ => none)
      (fun _ => ()) (fun _ _ => some ()) (fun v => v) () (fun _ _ => (none, none)))
    KindCat.raw false).1 rfl

/-- C4: ToSomeKindMeta tries the four categories in the fixed order raw,
core-structured, custom-structured, slot-implementation and returns the
metadata of the first ToKindMeta call that succeeds; it returns
ErrValueNotExist when the value does not exist, and the sentinel
ErrValueNotAKind when all four categories error. -/
theorem toSomeKindMeta_spec {V E P R L : Type} (api : CueAPI V E P R L) (v : V) :
    (api.vexists v = false →
      ToSomeKindMeta api v = KindResult.err KindError.ErrValueNotExist)
  ∧ (api.vexists v = true →
      ∀ m, ToKindMeta api KindCat.raw v = KindResult.ok m →
        ToSomeKindMeta api v = KindResult.ok m)
  ∧ (api.vexists v = true →
      ∀ e1 m, ToKindMeta api KindCat.raw v = KindResult.err e1 →
        ToKindMeta api KindCat.coreStructured v = KindResult.ok m →
        ToSomeKindMeta api v = KindResult.ok m)
  ∧ (api.vexists v = true →
      ∀ e1 e2 m, ToKindMeta api KindCat.raw v = KindResult.err e1 →
        ToKindMeta api KindCat.coreStructured v = KindResult.err e2 →
        ToKindMeta api KindCat.customStructured v = KindResult.ok m →
        ToSomeKindMeta api v = KindResult.ok m)
  ∧ (api.vexists v = true →
      ∀ e1 e2 e3 m, ToKindMeta api KindCat.raw v = KindResult.err e1 →
        ToKindMeta api KindCat.coreStructured v = KindResult.err e2 →
        ToKindMeta api KindCat.customStructured v = KindResult.err e3 →
        ToKindMeta api KindCat.slotImpl v = KindResult.ok m →
        ToSomeKindMeta api v = KindResult.ok m)
  ∧ (api.vexists v = true →
      ∀ e1 e2 e3 e4, ToKindMeta api KindCat.raw v = KindResult.err e1 →
        ToKindMeta api KindCat.coreStructured v = KindResult.err e2 →
        ToKindMeta api KindCat.customStructured v = KindResult.err e3 →
        ToKindMeta api KindCat.slotImpl v = KindResult.err e4 →
        ToSomeKindMeta api v = KindResult.err (KindError.ErrValueNotAKind none)) := by
  refine ⟨?_, ?_, ?_, ?_, ?_, ?_⟩
  · intro h
    simp [ToSomeKindMeta, h]
  · intro h m h1
    simp [ToSomeKindMeta, h, h1]
  · intro h e1 m h1 h2
    simp [ToSomeKindMeta, h, h1, h2]
  · intro h e1 e2 m h1 h2 h3
    simp [ToSomeKindMeta, h, h1, h2, h3]
  · intro h e1 e2 e3 m h1 h2 h3 h4
    simp [ToSomeKindMeta, h, h1, h2, h3, h4]
  · intro h e1 e2 e3 e4 h1 h2 h3 h4
    simp [ToSomeKindMeta, h, h1, h2, h3, h4]

/-- Closed instance of the ToSomeKindMeta theorem: with a runtime whose
validation always succeeds and whose decode always yields a payload, an
existing value is classified as a raw kind — the first category in the
fixed order. -/
theorem toSomeKindMeta_witness :
    ToSomeKindMeta
      (CueAPI.mk (V := Bool) (E := Unit) (P := Unit) (R := Unit) (L := Unit)
        (fun v => v) (fun _ => true) (fun a _ => a) (fun _ => none)
        (fun _ => ()) (fun _ _ => some ()) (fun v => v) () (fun _ _ => (none, none)))
      true
      = KindResult.ok (SomeKindMeta.RawMeta ()) :=
  (toSomeKindMeta_spec
    (CueAPI.mk (V := Bool) (E := Unit) (P := Unit) (R := Unit) (L := Unit)
      (fun v => v) (fun _ => true) (fun a _ => a) (fun _ => none)
      (fun _ => ()) (fun _ _ => some ()) (fun v => v) () (fun _ _ => (none, none)))
    true).2.1 rfl (SomeKindMeta.RawMeta ()) rfl

/-- SomeDecl (load.go lines 138-143): a kind declaration value V together
with its metadata. -/
structure SomeDecl (Val P : Type) where
  V : Val
  Meta : SomeKindMeta P

/-- IsRaw (load.go lines 165-168): whether the declaration's metadata is a
RawMeta. -/
def SomeDecl.IsRaw {Val P : Type} (decl : SomeDecl Val P) : Bool :=
  match decl.Meta with
  | SomeKindMeta.RawMeta _ => true
  | _ => false

/-- BindKindLineage (load.go lines 150-162).  rt is the optional runtime
argument (nil replaced by cuectx.GrafanaThemaRuntime()); the thema.Lineage
and Go error results form the returned pair.  Raw kinds yield (nil, nil);
the three structured categories bind the lineage found at the
declaration's "lineage" path via the external thema.BindLineage. -/
def BindKindLineage {Val E P R L : Type} (api : CueAPI Val E P R L)
    (decl : SomeDecl Val P) (rt : Option R) : Option L × Option E :=
  let rt := rt.getD api.grafanaThemaRuntime
  match decl.Meta with
  | SomeKindMeta.RawMeta _ => (none, none)
  | SomeKindMeta.CoreStructuredMeta _ => api.bindLineage rt (api.lookupLineage decl.V)
  | SomeKindMeta.CustomStructuredMeta _ => api.bindLineage rt (api.lookupLineage decl.V)
  | SomeKindMeta.SlotImplMeta _ => api.bindLineage rt (api.lookupLineage decl.V)

/-- C10: for a raw-kind declaration (IsRaw holds) BindKindLineage returns
the pair (nil, nil) — no lineage and no error — and for the three other
categories it returns the result of binding the lineage found at the
declaration's "lineage" path. -/
theorem bindKindLineage_spec {Val E P R L : Type} (api : CueAPI Val E P R L)
    (decl : SomeDecl Val P) (rt : Option R) :
    (decl.IsRaw = true → BindKindLineage api decl rt = (none, none))
  ∧ (decl.IsRaw = false →
      BindKindLineage api decl rt
        = api.bindLineage (rt.getD api.grafanaThemaRuntime) (api.lookupLineage decl.V)) := by
  constructor
  · intro h
    cases hm : decl.Meta with
    | RawMeta m => simp [BindKindLineage, hm]
    | CoreStructuredMeta m => simp [SomeDecl.IsRaw, hm] at h
    | CustomStructuredMeta m => simp [SomeDecl.IsRaw, hm] at h
    | SlotImplMeta m => simp [SomeDecl.IsRaw, hm] at h
  · intro h
    cases hm : decl.Meta with
    | RawMeta m => simp [SomeDecl.IsRaw, hm] at h
    | CoreStructuredMeta m => simp [BindKindLineage, hm]
    | CustomStructuredMeta m => simp [BindKindLineage, hm]
    | SlotImplMeta m => simp [BindKindLineage, hm]

/-- Closed instance of the BindKindLineage theorem: a raw-kind declaration
binds no lineage and reports no error. -/
theorem bindKindLineage_witness :
    BindKindLineage
      (CueAPI.mk (V := Bool) (E := Unit) (P := Unit) (R := Unit) (L := Unit)
        (fun v => v) (fun _ => true) (fun a _ => a) (fun _ => none)
        (fun _ => ()) (fun _ _ => some ()) (fun v => v) () (fun _ _ => (some (), none)))
      (SomeDecl.mk true (SomeKindMeta.RawMeta ())) none
      = (none, none) :=
  (bindKindLineage_spec
    (CueAPI.mk (V := Bool) (E := Unit) (P := Unit) (R := Unit) (L := Unit)
      (fun v => v) (fun _ => true) (fun a _ => a) (fun _ => none)
      (fun _ => ()) (fun _ _ => some ()) (fun v => v) () (fun _ _ => (some (), none)))
    (SomeDecl.mk true (SomeKindMeta.RawMeta ())) none).1 rfl

/-! ## Virtual-filesystem merging (pkg/cuectx, PrefixWithGrafanaCUE)

An fs.FS is modelled as a list of (path, contents) entries, a path being
its list of slash-separated segments (fstest.MapFS only recognises forward
slashes; filepath.Join of clean relative paths is segment concatenation,
and FromSlash/ToSlash are the identity in the slash world).  Lookup is
first match, so list concatenation models merged_fs.NewMergedFS, whose
Open consults its first filesystem before its second. -/

abbrev VFS : Type := List (List String × String)

/-- Opening a path in a modelled filesystem: the contents of the first
entry carrying that path. -/
def lookupVFS : VFS → List String → Option String
  | [], _ => none
  | (q, dat) :: rest, p => if q = p then some dat else lookupVFS rest p

/-- PrefixWithGrafanaCUE (cuectx.go lines 95-123).  pfx is the prefix
argument, inputfs the walked filesystem, cueSchemaFS the embedded
grafana.CueSchemaFS (external: grafana's .cue files, passed as a
parameter).  The fs.WalkDir loop copies every file of inputfs to the
MapFS m under Join(prefix, path); the result merges m over the embedded
filesystem, m taking precedence. -/
def PrefixWithGrafanaCUE (pfx : List String) (inputfs cueSchemaFS : VFS) : VFS :=
  let m : VFS := inputfs.map (fun ent => (pfx ++ ent.1, ent.2))
  m ++ cueSchemaFS

theorem lookupVFS_map_prefixed (pfx : List String) (l : VFS) (p : List String) :
    lookupVFS (l.map (fun ent => (pfx ++ ent.1, ent.2))) (pfx ++ p) = lookupVFS l p := by
  induction l with
  | nil => rfl
  | cons ent rest ih =>
    obtain ⟨q, dat⟩ := ent
    simp only [List.map_cons, lookupVFS]
    by_cases h : q = p
    · simp [h]
    · have hne : ¬(pfx ++ q = pfx ++ p) := fun hc => h (List.append_cancel_left hc)
      simp [h, hne, ih]

theorem lookupVFS_append_left {a : VFS} {p : List String} {dat : String}
    (h : lookupVFS a p = some dat) (b : VFS) :
    lookupVFS (a ++ b) p = some dat := by
  induction a with
  | nil => simp [lookupVFS] at h
  | cons ent rest ih =>
    obtain ⟨q, e⟩ := ent
    simp only [lookupVFS, List.cons_append] at h ⊢
    by_cases hq : q = p
    · simpa [hq] using h
    · simp [hq] at h ⊢
      exact ih h

theorem lookupVFS_isSome_of_mem {b : VFS} {p : List String}
    (h : p ∈ b.map Prod.fst) : (lookupVFS b p).isSome = true := by
  induction b with
  | nil => simp at h
  | cons ent rest ih =>
    obtain ⟨q, e⟩ := ent
    simp only [List.map_cons, List.mem_cons] at h
    simp only [lookupVFS]
    by_cases hq : q = p
    · simp [hq]
    · rcases h with h | h
      · exact absurd h.symm hq
      · simp [hq, ih h]

theorem lookupVFS_append_isSome {a b : VFS} {p : List String}
    (h : (lookupVFS b p).isSome = true) :
    (lookupVFS (a ++ b) p).isSome = true := by
  induction a with
  | nil => simpa using h
  | cons ent rest ih =>
    obtain ⟨q, e⟩ := ent
    simp only [lookupVFS, List.cons_append]
    by_cases hq : q = p
    · simp [hq]
    · simp [hq, ih]

/-- C7: the filesystem built by PrefixWithGrafanaCUE merges the prefixed
input with the embedded CUE filesystem: every file at path p of the input
filesystem is present with identical contents at path pfx ++ p in the
result, and every path of the embedded filesystem can be opened in the
result. -/
theorem prefixWithGrafanaCUE_spec (pfx : List String) (inputfs cueSchemaFS : VFS) :
    (∀ p dat, lookupVFS inputfs p = some dat →
      lookupVFS (PrefixWithGrafanaCUE pfx inputfs cueSchemaFS) (pfx ++ p) = some dat)
  ∧ (∀ p, p ∈ cueSchemaFS.map Prod.fst →
      (lookupVFS (PrefixWithGrafanaCUE pfx inputfs cueSchemaFS) p).isSome = true) := by
  constructor
  · intro p dat h
    unfold PrefixWithGrafanaCUE
    apply lookupVFS_append_left
    rw [lookupVFS_map_prefixed]
    exact h
  · intro p hmem
    unfold PrefixWithGrafanaCUE
    exact lookupVFS_append_isSome (lookupVFS_isSome_of_mem hmem)

/-- Closed instance of the PrefixWithGrafanaCUE theorem: a one-file input
filesystem surfaces under the prefix with its contents intact, and a file
of the embedded filesystem stays openable. -/
theorem prefixWithGrafanaCUE_witness :
    lookupVFS
      (PrefixWithGrafanaCUE ["pkg", "kindsys"]
        [(["lineage.cue"], "lin")] [(["cue.mod", "module.cue"], "mod")])
      ["pkg", "kindsys", "lineage.cue"] = some ("lin")
  ∧ (lookupVFS
      (PrefixWithGrafanaCUE ["pkg", "kindsys"]
        [(["lineage.cue"], "lin")] [(["cue.mod", "module.cue"], "mod")])
      ["cue.mod", "module.cue"]).isSome = true := by
  constructor
  · exact (prefixWithGrafanaCUE_spec ["pkg", "kindsys"]
      [(["lineage.cue"], "lin")] [(["cue.mod", "module.cue"], "mod")]).1
      ["lineage.cue"] ("lin") rfl
  · exact (prefixWithGrafanaCUE_spec ["pkg", "kindsys"]
      [(["lineage.cue"], "lin")] [(["cue.mod", "module.cue"], "mod")]).2
      ["cue.mod", "module.cue"] (by simp)
